import Mathlib

/-!
# Verification of the portfolio-tracker core

Shallow embedding of `src/balance_fetcher.py` and `src/portfolio_aggregator.py`.

Python numbers are modelled as rationals (`ℚ`), Python `None` / missing dict
keys as `Option`, Python exceptions as `Except String`.  A Python dict record
becomes a structure whose optional fields default to `none` (a missing key).
Truthiness of Python values is modelled explicitly (`truthyStr`, `truthyNum`).
-/

namespace PortfolioTracker

/-- Python `str.strip()`: drop whitespace from both ends (modelled on the
character list so that concrete evaluation is structural). -/
def pyStrip (s : String) : String :=
  ⟨(((s.data.dropWhile Char.isWhitespace).reverse).dropWhile Char.isWhitespace).reverse⟩

/-- Python `str.lower()`. -/
def pyLower (s : String) : String := ⟨s.data.map Char.toLower⟩

/-- Python `str.startswith(pre)`. -/
def pyStartsWith (s pre : String) : Bool := pre.data.isPrefixOf s.data

/-- Truthiness of an optional Python string: `None` and `""` are falsy. -/
def truthyStr : Option String → Bool
  | none => false
  | some s => !(s == "")

/-- Truthiness of an optional Python number: `None` and `0` are falsy. -/
def truthyNum : Option ℚ → Bool
  | none => false
  | some q => !(q == 0)

/-- A balance record as produced by `BalanceFetcher` and consumed by
`PortfolioAggregator.aggregate_portfolio`: a Python dict; absent keys are
`none`. `chain_id` is always present (the aggregator indexes it with
`balance["chain_id"]`). -/
structure BalanceRecord where
  chain_id : ℤ
  chain_name : Option String := none
  token_type : Option String := none
  contract_address : Option String := none
  symbol : Option String := none
  name : Option String := none
  balance : Option ℚ := none
  balance_wei : Option ℤ := none
  balance_raw : Option ℤ := none
  decimals : Option ℕ := none
  error : Option String := none
deriving DecidableEq, Repr

/-- A record after `_enrich_with_prices`: the copied dict plus the two keys
`price_usd` and `value_usd` that enrichment always sets. -/
structure EnrichedRecord extends BalanceRecord where
  price_usd : Option ℚ := none
  value_usd : ℚ := 0
deriving DecidableEq, Repr

/-- `_get_fallback_price`: the hardcoded price table, keyed by symbol. -/
def fallback_prices : String → Option ℚ
  | "ETH" => some 3000
  | "BNB" => some 600
  | "MATIC" => some 1
  | "AVAX" => some 40
  | "USDC" => some 1
  | "USDT" => some 1
  | "DAI" => some 1
  | "WETH" => some 3000
  | "WBNB" => some 600
  | "WMATIC" => some 1
  | _ => none

/-- `_get_fallback_price(symbol)` where `symbol` may be `None`
(`fallback_prices.get(None)` is `None`). -/
def get_fallback_price : Option String → Option ℚ
  | none => none
  | some s => fallback_prices s

/-- Outcome of one HTTP call to the price oracle, as observed by
`_get_token_price`: a 200 response carrying `data.get("price_usd")`
(possibly absent), or any other status / timeout / transport error. -/
inductive OracleReply where
  | http200 (price_usd : Option ℚ)
  | failed
deriving DecidableEq, Repr

/-- The external price-oracle capability: token address and chain id to
one observed HTTP outcome. -/
def Oracle : Type := String → ℤ → OracleReply

/-- `balance.get("contract_address") or "native"`. -/
def token_address_of (r : BalanceRecord) : String :=
  match r.contract_address with
  | some s => if s == "" then "native" else s
  | none => "native"

/-- `_get_token_price`: oracle first (only when a truthy oracle URL is
configured and the address is not `"native"`); a 200 reply returns its
`price_usd` field directly (even when absent), any other outcome falls back
to the hardcoded table. -/
def get_token_price (price_oracle_url : Option String) (oracle : Oracle)
    (token_address : String) (chain_id : ℤ) (symbol : Option String) : Option ℚ :=
  if truthyStr price_oracle_url && !(token_address == "native") then
    match oracle token_address chain_id with
    | .http200 p => p
    | .failed => get_fallback_price symbol
  else
    get_fallback_price symbol

/-- The loop body of `_enrich_with_prices`: copy the record and set
`price_usd` / `value_usd` (`if price_usd is not None and balance.get("balance"):`). -/
def enrich_one (price_oracle_url : Option String) (oracle : Oracle)
    (r : BalanceRecord) : EnrichedRecord :=
  match get_token_price price_oracle_url oracle (token_address_of r) r.chain_id r.symbol with
  | some p =>
    if truthyNum r.balance then
      { toBalanceRecord := r, price_usd := some p, value_usd := p * r.balance.getD 0 }
    else
      { toBalanceRecord := r, price_usd := none, value_usd := 0 }
  | none => { toBalanceRecord := r, price_usd := none, value_usd := 0 }

/-- `_enrich_with_prices`. -/
def enrich_with_prices (price_oracle_url : Option String) (oracle : Oracle)
    (balances : List BalanceRecord) : List EnrichedRecord :=
  balances.map (enrich_one price_oracle_url oracle)

/-- One `{symbol, balance, value_usd}` entry of a chain group. -/
structure TokenEntry where
  symbol : Option String
  balance : Option ℚ
  value_usd : ℚ
deriving DecidableEq, Repr

/-- One group of `breakdown_by_chain`. -/
structure ChainGroup where
  chain_id : ℤ
  chain_name : String
  value_usd : ℚ
  tokens : List TokenEntry
deriving DecidableEq, Repr

/-- One group of `breakdown_by_token`. -/
structure TokenGroup where
  symbol : Option String
  balance : ℚ
  value_usd : ℚ
  chains : List (Option String)
deriving DecidableEq, Repr

/-- The `{symbol, balance, value_usd}` entry appended for a record. -/
def token_entry_of (b : EnrichedRecord) : TokenEntry :=
  { symbol := b.symbol, balance := b.balance, value_usd := b.value_usd }

/-- One iteration of the chain-grouping loop: `by_chain[chain_id]` with the
defaultdict default, then set name, accumulate value, append the token entry.
Python dicts preserve insertion order, so a fresh key goes to the end. -/
def upsert_chain : List ChainGroup → EnrichedRecord → List ChainGroup
  | [], b =>
    [{ chain_id := b.chain_id,
       chain_name := b.chain_name.getD s!"Chain {b.chain_id}",
       value_usd := 0 + b.value_usd,
       tokens := [token_entry_of b] }]
  | g :: gs, b =>
    if g.chain_id = b.chain_id then
      { g with chain_name := b.chain_name.getD s!"Chain {b.chain_id}",
               value_usd := g.value_usd + b.value_usd,
               tokens := g.tokens ++ [token_entry_of b] } :: gs
    else
      g :: upsert_chain gs b

/-- The chain-grouping loop over all enriched records. -/
def group_by_chain (balances : List EnrichedRecord) : List ChainGroup :=
  balances.foldl upsert_chain []

/-- `balance.get("symbol", "UNKNOWN")`, the token-grouping key. -/
def symbol_key (b : EnrichedRecord) : Option String :=
  some (b.symbol.getD "UNKNOWN")

/-- One iteration of the token-grouping loop (keyed by
`balance.get("symbol", "UNKNOWN")`): accumulate balance and value, append
the chain name (`balance.get("chain_name")`, possibly `None`). -/
def upsert_token : List TokenGroup → EnrichedRecord → List TokenGroup
  | [], b =>
    [{ symbol := symbol_key b,
       balance := 0 + b.balance.getD 0,
       value_usd := 0 + b.value_usd,
       chains := [b.chain_name] }]
  | g :: gs, b =>
    if g.symbol = symbol_key b then
      { g with balance := g.balance + b.balance.getD 0,
               value_usd := g.value_usd + b.value_usd,
               chains := g.chains ++ [b.chain_name] } :: gs
    else
      g :: upsert_token gs b

/-- The token-grouping loop over all enriched records. -/
def group_by_token (balances : List EnrichedRecord) : List TokenGroup :=
  balances.foldl upsert_token []

/-- The comparison used by `sorted(..., key=lambda x: x["value_usd"],
reverse=True)` on chain groups: stable sort with all comparisons reversed. -/
def chain_desc (a b : ChainGroup) : Bool := decide (b.value_usd ≤ a.value_usd)

/-- The reversed comparison for token groups. -/
def token_desc (a b : TokenGroup) : Bool := decide (b.value_usd ≤ a.value_usd)

/-- `max(b.get("value_usd", 0) for b in balances)` over a nonempty list
(the code guards with `if balances:`; `0` here is an unused placeholder). -/
def max_value_of : List EnrichedRecord → ℚ
  | [] => 0
  | b :: bs => bs.foldl (fun acc r => max acc r.value_usd) b.value_usd

/-- `_generate_warnings(balances, total_value)`: up to three appends, in a
fixed order. -/
def generate_warnings (balances : List EnrichedRecord) (total_value : ℚ) :
    List String :=
  let no_price_count := (balances.filter (fun b => b.price_usd = none)).length
  let w1 : List String :=
    if no_price_count > 0 then
      [s!"ℹ️ {no_price_count} token(s) missing price data - using fallback estimates"]
    else []
  let w2 : List String :=
    if total_value < 1 then w1 ++ ["ℹ️ Portfolio value below $1 USD"] else w1
  if balances ≠ [] then
    let max_value := max_value_of balances
    if total_value > 0 ∧ max_value / total_value > 9/10 then
      w2 ++ ["⚠️ Portfolio highly concentrated in single asset"]
    else w2
  else w2

/-- The `PortfolioSummary` dataclass. -/
structure PortfolioSummary where
  wallet_address : String
  total_value_usd : ℚ
  chains_count : ℕ
  tokens_count : ℕ
  native_value_usd : ℚ
  erc20_value_usd : ℚ
  breakdown_by_chain : List ChainGroup
  breakdown_by_token : List TokenGroup
  warnings : List String
  timestamp : String
deriving DecidableEq, Repr

/-- Python `round(x, 2)`: rounding to 2 decimal places. -/
def round2 (q : ℚ) : ℚ := (round (q * 100) : ℤ) / 100

/-- `_create_empty_portfolio`. -/
def create_empty_portfolio (wallet_address : String)
    (balances : List BalanceRecord) : PortfolioSummary :=
  let errors := (balances.filter (fun b => truthyStr b.error)).map (·.error)
  let warnings :=
    if errors ≠ [] then
      ["🚫 No valid balances found", s!"ℹ️ {errors.length} chain(s) failed to fetch"]
    else
      ["🚫 No valid balances found"]
  { wallet_address := wallet_address,
    total_value_usd := 0,
    chains_count := 0,
    tokens_count := 0,
    native_value_usd := 0,
    erc20_value_usd := 0,
    breakdown_by_chain := [],
    breakdown_by_token := [],
    warnings := warnings,
    timestamp := "" }

/-- `sum(b.get("value_usd", 0) for b in balances_with_prices)`. -/
def total_value_of (balances : List EnrichedRecord) : ℚ :=
  (balances.map (·.value_usd)).sum

/-- The sum restricted to records with `token_type == "native"`. -/
def native_value_of (balances : List EnrichedRecord) : ℚ :=
  ((balances.filter (fun b => b.token_type = some "native")).map (·.value_usd)).sum

/-- The sum restricted to records with `token_type == "erc20"`. -/
def erc20_value_of (balances : List EnrichedRecord) : ℚ :=
  ((balances.filter (fun b => b.token_type = some "erc20")).map (·.value_usd)).sum

/-- `aggregate_portfolio`, parameterised over the configured oracle URL and
the observed oracle outcomes.  `timestamp` is left `""` for the caller. -/
def aggregate_portfolio (price_oracle_url : Option String) (oracle : Oracle)
    (wallet_address : String) (balances : List BalanceRecord) : PortfolioSummary :=
  let valid_balances := balances.filter (fun b => !truthyStr b.error)
  if valid_balances = [] then
    create_empty_portfolio wallet_address balances
  else
    let balances_with_prices := enrich_with_prices price_oracle_url oracle valid_balances
    let total_value := total_value_of balances_with_prices
    let native_value := native_value_of balances_with_prices
    let erc20_value := erc20_value_of balances_with_prices
    let breakdown_by_chain := (group_by_chain balances_with_prices).mergeSort chain_desc
    let breakdown_by_token := (group_by_token balances_with_prices).mergeSort token_desc
    let warnings := generate_warnings balances_with_prices total_value
    let chains_count := ((valid_balances.map (·.chain_id)).eraseDups).length
    let tokens_count := valid_balances.length
    { wallet_address := wallet_address,
      total_value_usd := round2 total_value,
      chains_count := chains_count,
      tokens_count := tokens_count,
      native_value_usd := round2 native_value,
      erc20_value_usd := round2 erc20_value,
      breakdown_by_chain := breakdown_by_chain,
      breakdown_by_token := breakdown_by_token,
      warnings := warnings,
      timestamp := "" }

/-- Static per-chain configuration: `CHAIN_CONFIG`. -/
structure ChainInfo where
  name : String
  symbol : String
  decimals : ℕ
deriving DecidableEq, Repr

/-- `CHAIN_CONFIG.get(chain_id)`: the fixed table of supported chains. -/
def CHAIN_CONFIG : ℤ → Option ChainInfo
  | 1 => some ⟨"Ethereum", "ETH", 18⟩
  | 56 => some ⟨"BNB Chain", "BNB", 18⟩
  | 137 => some ⟨"Polygon", "MATIC", 18⟩
  | 42161 => some ⟨"Arbitrum", "ETH", 18⟩
  | 10 => some ⟨"Optimism", "ETH", 18⟩
  | 8453 => some ⟨"Base", "ETH", 18⟩
  | 43114 => some ⟨"Avalanche", "AVAX", 18⟩
  | _ => none

/-- The external RPC capabilities consumed by `BalanceFetcher`, one outcome
per (chain, argument) combination.  `available c` models `_get_w3(c)`
returning an instance (a configured URL whose `Web3` construction succeeded);
each query capability returns the observed value or the raised exception's
message.  `balanceOf` takes the normalized token then wallet address and
also absorbs failures of contract-object construction, which the source
performs immediately before the `balanceOf` call inside the same `try`. -/
structure Web3Env where
  available : ℤ → Bool
  getBalance : ℤ → String → Except String ℤ
  balanceOf : ℤ → String → String → Except String ℤ
  decimalsQ : ℤ → String → Except String ℕ
  symbolQ : ℤ → String → Except String String
  nameQ : ℤ → String → Except String String

/-- `_normalize_address`: strip, then require the `0x` prefix and exactly
42 characters, else raise `ValueError(f"Invalid address: {address}")`. -/
def normalize_address (address : String) : Except String String :=
  let address := pyStrip address
  if !(pyStartsWith address "0x") || address.length ≠ 42 then
    Except.error s!"Invalid address: {address}"
  else
    Except.ok address

/-- A Python `try: body except Exception as e: return handler(e)` block:
every raise is converted into a normal return. -/
def pyTry {α : Type} (body : Except String α) (handler : String → α) :
    Except String α :=
  match body with
  | .ok a => Except.ok a
  | .error e => Except.ok (handler e)

/-- The `try:` body of `get_native_balance`. -/
def native_body (env : Web3Env) (wallet_address : String) (chain_id : ℤ) :
    Except String BalanceRecord :=
  if !env.available chain_id then
    Except.ok { chain_id := chain_id,
                error := some s!"Chain {chain_id} not supported or failed to initialize" }
  else
    let chain_info := CHAIN_CONFIG chain_id
    match normalize_address wallet_address with
    | .error e => Except.error e
    | .ok address =>
      match env.getBalance chain_id address with
      | .error e => Except.error e
      | .ok balance_wei =>
        let decimals := (chain_info.map (·.decimals)).getD 18
        Except.ok
          { chain_id := chain_id,
            chain_name := some ((chain_info.map (·.name)).getD s!"Chain {chain_id}"),
            token_type := some "native",
            symbol := some ((chain_info.map (·.symbol)).getD "UNKNOWN"),
            balance := some ((balance_wei : ℚ) / 10 ^ decimals),
            balance_wei := some balance_wei,
            decimals := some decimals,
            contract_address := none }

/-- `get_native_balance`: the body above inside a catch-all `try/except`
that converts any exception into an error record. -/
def get_native_balance (env : Web3Env) (wallet_address : String)
    (chain_id : ℤ) : Except String BalanceRecord :=
  pyTry (native_body env wallet_address chain_id)
    (fun e => { chain_id := chain_id, error := some e })

/-- The `try:` body of `get_token_balance`: unavailability check, normalize
both addresses, query `balanceOf` (not defaulted), then the three metadata
queries, each wrapped in its own bare `try/except` with a hardcoded default. -/
def token_body (env : Web3Env) (wallet_address token_address : String)
    (chain_id : ℤ) : Except String BalanceRecord :=
  if !env.available chain_id then
    Except.ok { chain_id := chain_id,
                error := some s!"Chain {chain_id} not supported or failed to initialize" }
  else
    match normalize_address wallet_address with
    | .error e => Except.error e
    | .ok wallet =>
      match normalize_address token_address with
      | .error e => Except.error e
      | .ok token =>
        match env.balanceOf chain_id token wallet with
        | .error e => Except.error e
        | .ok balance_raw =>
          let decimals := match env.decimalsQ chain_id token with
            | .ok d => d
            | .error _ => 18
          let symbol := match env.symbolQ chain_id token with
            | .ok s => s
            | .error _ => "UNKNOWN"
          let name := match env.nameQ chain_id token with
            | .ok s => s
            | .error _ => "Unknown Token"
          Except.ok
            { chain_id := chain_id,
              chain_name := some ((CHAIN_CONFIG chain_id |>.map (·.name)).getD s!"Chain {chain_id}"),
              token_type := some "erc20",
              contract_address := some (pyLower token_address),
              symbol := some symbol,
              name := some name,
              balance := some ((balance_raw : ℚ) / 10 ^ decimals),
              balance_raw := some balance_raw,
              decimals := some decimals }

/-- `get_token_balance`: the body inside a catch-all `try/except`; the error
record also carries `token_address.lower()`. -/
def get_token_balance (env : Web3Env) (wallet_address token_address : String)
    (chain_id : ℤ) : Except String BalanceRecord :=
  pyTry (token_body env wallet_address token_address chain_id)
    (fun e => { chain_id := chain_id,
                contract_address := some (pyLower token_address),
                error := some e })

/-- The token loop of `get_wallet_tokens`: append each token record whose
`error` is falsy and whose `balance.get("balance", 0)` is strictly positive. -/
def wallet_tokens_loop (env : Web3Env) (wallet_address : String) (chain_id : ℤ)
    (acc : List BalanceRecord) : List String → Except String (List BalanceRecord)
  | [] => Except.ok acc
  | token_address :: rest => do
    let token_balance ← get_token_balance env wallet_address token_address chain_id
    if !truthyStr token_balance.error && token_balance.balance.getD 0 > 0 then
      wallet_tokens_loop env wallet_address chain_id (acc ++ [token_balance]) rest
    else
      wallet_tokens_loop env wallet_address chain_id acc rest

/-- `get_wallet_tokens`: always resolve the native balance (kept when its
`error` is falsy), then the token loop over the optional address list
(`if token_addresses:` — `None` and `[]` are both falsy). -/
def get_wallet_tokens (env : Web3Env) (wallet_address : String) (chain_id : ℤ)
    (token_addresses : Option (List String)) : Except String (List BalanceRecord) := do
  let native_balance ← get_native_balance env wallet_address chain_id
  let balances := if !truthyStr native_balance.error then [native_balance] else []
  match token_addresses with
  | none => Except.ok balances
  | some [] => Except.ok balances
  | some addrs => wallet_tokens_loop env wallet_address chain_id balances addrs

/-! ## Concrete instances used by witnesses and counterexamples -/

/-- A concrete environment: every chain available, all queries succeed. -/
def env0 : Web3Env :=
  { available := fun _ => true,
    getBalance := fun _ _ => Except.ok 2000000000000000000,
    balanceOf := fun _ _ _ => Except.ok 5,
    decimalsQ := fun _ _ => Except.ok 6,
    symbolQ := fun _ _ => Except.ok "TOK",
    nameQ := fun _ _ => Except.ok "Token" }

/-- A concrete environment whose metadata queries all fail. -/
def envMetaFail : Web3Env :=
  { available := fun _ => true,
    getBalance := fun _ _ => Except.ok 0,
    balanceOf := fun _ _ _ => Except.ok 12345,
    decimalsQ := fun _ _ => Except.error "no decimals()",
    symbolQ := fun _ _ => Except.error "no symbol()",
    nameQ := fun _ _ => Except.error "no name()" }

/-- A concrete oracle that always fails (every record falls back to the table). -/
def oracle0 : Oracle := fun _ _ => OracleReply.failed

/-- A concrete malformed address string. -/
def bad : String := "bad"

/-- A well-formed wallet address. -/
def wa : String := "0x1111111111111111111111111111111111111111"

/-- A well-formed token contract address. -/
def ta : String := "0x2222222222222222222222222222222222222222"

/-- A concrete valid native balance record (2 ETH). -/
def r0 : BalanceRecord :=
  { chain_id := 1, chain_name := some "Ethereum", token_type := some "native",
    symbol := some "ETH", balance := some 2 }

/-- A concrete valid native record with zero balance. -/
def rZero : BalanceRecord :=
  { chain_id := 1, chain_name := some "Ethereum", token_type := some "native",
    symbol := some "ETH", balance := some 0 }

/-- A concrete failed record. -/
def rErr : BalanceRecord := { chain_id := 1, error := some "boom" }

/-! ## Helper lemmas -/

lemma round2_zero : round2 0 = 0 := by simp [round2]

/-- The two branches of `aggregate_portfolio`, exposed as equations. -/
lemma aggregate_portfolio_of_valid_nil (url : Option String) (oracle : Oracle)
    (wallet : String) (balances : List BalanceRecord)
    (h : balances.filter (fun b => !truthyStr b.error) = []) :
    aggregate_portfolio url oracle wallet balances =
      create_empty_portfolio wallet balances := by
  unfold aggregate_portfolio
  rw [h]
  simp

lemma aggregate_portfolio_of_valid_ne (url : Option String) (oracle : Oracle)
    (wallet : String) (balances : List BalanceRecord)
    (h : balances.filter (fun b => !truthyStr b.error) ≠ []) :
    aggregate_portfolio url oracle wallet balances =
      { wallet_address := wallet,
        total_value_usd := round2 (total_value_of
          (enrich_with_prices url oracle (balances.filter (fun b => !truthyStr b.error)))),
        chains_count := (((balances.filter (fun b => !truthyStr b.error)).map
          (·.chain_id)).eraseDups).length,
        tokens_count := (balances.filter (fun b => !truthyStr b.error)).length,
        native_value_usd := round2 (native_value_of
          (enrich_with_prices url oracle (balances.filter (fun b => !truthyStr b.error)))),
        erc20_value_usd := round2 (erc20_value_of
          (enrich_with_prices url oracle (balances.filter (fun b => !truthyStr b.error)))),
        breakdown_by_chain := (group_by_chain
          (enrich_with_prices url oracle
            (balances.filter (fun b => !truthyStr b.error)))).mergeSort chain_desc,
        breakdown_by_token := (group_by_token
          (enrich_with_prices url oracle
            (balances.filter (fun b => !truthyStr b.error)))).mergeSort token_desc,
        warnings := generate_warnings
          (enrich_with_prices url oracle (balances.filter (fun b => !truthyStr b.error)))
          (total_value_of
            (enrich_with_prices url oracle (balances.filter (fun b => !truthyStr b.error)))),
        timestamp := "" } := by
  unfold aggregate_portfolio
  simp only [if_neg h]

lemma enrich_one_toBalanceRecord (url : Option String) (oracle : Oracle)
    (r : BalanceRecord) : (enrich_one url oracle r).toBalanceRecord = r := by
  unfold enrich_one
  cases get_token_price url oracle (token_address_of r) r.chain_id r.symbol with
  | some p =>
    by_cases h : truthyNum r.balance = true <;> simp [h]
  | none => rfl

lemma mem_enrich_token_type (url : Option String) (oracle : Oracle)
    (l : List BalanceRecord) (b : EnrichedRecord)
    (hb : b ∈ enrich_with_prices url oracle l) :
    b.toBalanceRecord ∈ l := by
  unfold enrich_with_prices at hb
  obtain ⟨a, ha, rfl⟩ := List.mem_map.1 hb
  rw [enrich_one_toBalanceRecord]
  exact ha

lemma total_value_split : ∀ (l : List EnrichedRecord),
    (∀ b ∈ l, b.token_type = some "native" ∨ b.token_type = some "erc20") →
    total_value_of l = native_value_of l + erc20_value_of l
  | [], _ => by simp [total_value_of, native_value_of, erc20_value_of]
  | b :: l, h => by
    have ih := total_value_split l (fun x hx => h x (List.mem_cons_of_mem _ hx))
    rcases h b (List.mem_cons_self _ _) with hb | hb
    · simp only [total_value_of, native_value_of, erc20_value_of, List.filter_cons, hb,
        List.map_cons, List.sum_cons]
      rw [if_pos (by decide), if_neg (by decide), List.map_cons, List.sum_cons]
      simp only [total_value_of, native_value_of, erc20_value_of] at ih
      rw [ih]; ring
    · simp only [total_value_of, native_value_of, erc20_value_of, List.filter_cons, hb,
        List.map_cons, List.sum_cons]
      rw [if_neg (by decide), if_pos (by decide), List.map_cons, List.sum_cons]
      simp only [total_value_of, native_value_of, erc20_value_of] at ih
      rw [ih]; ring

/-- **C1**: whenever every valid input record has `token_type` `"native"` or
`"erc20"`, the three USD totals of `aggregate_portfolio` are the 2-decimal
roundings of unrounded values `n`, `e` and `n + e`: the invariant
`total_value_usd = native_value_usd + erc20_value_usd` holds up to the
rounding of each field at output. -/
theorem aggregate_total_splits_native_erc20 (url : Option String) (oracle : Oracle)
    (wallet : String) (balances : List BalanceRecord)
    (h : ∀ r ∈ balances.filter (fun b => !truthyStr b.error),
      r.token_type = some "native" ∨ r.token_type = some "erc20") :
    ∃ n e : ℚ,
      (aggregate_portfolio url oracle wallet balances).native_value_usd = round2 n ∧
      (aggregate_portfolio url oracle wallet balances).erc20_value_usd = round2 e ∧
      (aggregate_portfolio url oracle wallet balances).total_value_usd = round2 (n + e) := by
  by_cases hv : balances.filter (fun b => !truthyStr b.error) = []
  · rw [aggregate_portfolio_of_valid_nil url oracle wallet balances hv]
    exact ⟨0, 0, by simp [create_empty_portfolio, round2_zero]⟩
  · rw [aggregate_portfolio_of_valid_ne url oracle wallet balances hv]
    set valid := balances.filter (fun b => !truthyStr b.error) with hvalid
    set enr := enrich_with_prices url oracle valid with henr
    refine ⟨native_value_of enr, erc20_value_of enr, rfl, rfl, ?_⟩
    have hsplit : total_value_of enr = native_value_of enr + erc20_value_of enr := by
      refine total_value_split enr (fun b hb => ?_)
      have := mem_enrich_token_type url oracle valid b (henr ▸ hb)
      exact h _ this
    simp [hsplit]

/-- **C1 witness**: the hypothesis and conclusion at a concrete input
(a single 2-ETH native record priced from the fallback table). -/
theorem aggregate_total_splits_native_erc20_witness :
    ∃ n e : ℚ,
      (aggregate_portfolio none oracle0 "w" [r0]).native_value_usd = round2 n ∧
      (aggregate_portfolio none oracle0 "w" [r0]).erc20_value_usd = round2 e ∧
      (aggregate_portfolio none oracle0 "w" [r0]).total_value_usd = round2 (n + e) :=
  aggregate_total_splits_native_erc20 none oracle0 "w" [r0] (by decide)

/-- **C3**: when every input record is error-bearing (including the empty
list), `aggregate_portfolio` returns the empty summary: zero totals and
counts, empty breakdowns, the "no valid balances" warning, followed by the
failed-record count exactly when at least one failed record exists. -/
theorem aggregate_all_failed_empty_summary (url : Option String) (oracle : Oracle)
    (wallet : String) (balances : List BalanceRecord)
    (h : ∀ r ∈ balances, truthyStr r.error = true) :
    aggregate_portfolio url oracle wallet balances =
      { wallet_address := wallet,
        total_value_usd := 0,
        chains_count := 0,
        tokens_count := 0,
        native_value_usd := 0,
        erc20_value_usd := 0,
        breakdown_by_chain := [],
        breakdown_by_token := [],
        warnings := "🚫 No valid balances found" ::
          (if balances = [] then []
           else [s!"ℹ️ {balances.length} chain(s) failed to fetch"]),
        timestamp := "" } := by
  have hvalid : balances.filter (fun b => !truthyStr b.error) = [] :=
    List.filter_eq_nil_iff.2 (fun a ha => by simp [h a ha])
  have herrs : balances.filter (fun b => truthyStr b.error) = balances :=
    List.filter_eq_self.2 (fun a ha => by simp [h a ha])
  unfold aggregate_portfolio
  rw [hvalid]
  simp only [if_pos rfl]
  unfold create_empty_portfolio
  rw [herrs]
  cases balances with
  | nil => rfl
  | cons b bs => simp

/-- **C3 witness**: the empty summary at a concrete all-failed input. -/
theorem aggregate_all_failed_empty_summary_witness :
    aggregate_portfolio none oracle0 "w" [rErr] =
      { wallet_address := "w",
        total_value_usd := 0,
        chains_count := 0,
        tokens_count := 0,
        native_value_usd := 0,
        erc20_value_usd := 0,
        breakdown_by_chain := [],
        breakdown_by_token := [],
        warnings := "🚫 No valid balances found" ::
          (if ([rErr] : List BalanceRecord) = [] then []
           else [s!"ℹ️ {([rErr] : List BalanceRecord).length} chain(s) failed to fetch"]),
        timestamp := "" } :=
  aggregate_all_failed_empty_summary none oracle0 "w" [rErr] (by decide)

/-- **C2 counterexample**: for the valid zero-balance native record `rZero`,
price resolution yields `3000` from the fallback table, yet the enriched
record has `price_usd` absent (the code requires `balance.get("balance")`
to be truthy before attaching the resolved price), refuting the claim that
a resolved price is always attached. -/
theorem enrich_zero_balance_drops_price :
    get_token_price none oracle0 (token_address_of rZero) rZero.chain_id rZero.symbol =
      some 3000 ∧
    (enrich_one none oracle0 rZero).price_usd = none ∧
    (enrich_one none oracle0 rZero).value_usd = 0 :=
  ⟨rfl, by decide, by decide⟩

/-- **C2 amended**: for every record passed to price enrichment: if price
resolution yields `p` *and the record's balance is present and nonzero*,
the enriched record has `price_usd = p` and `value_usd = p × balance`;
otherwise (no price, or absent/zero balance) `price_usd` is absent and
`value_usd = 0`; in either case the record is kept: the enriched record
carries the original record unchanged and enrichment maps each input
record to exactly one output record. -/
theorem enrich_sets_price_value_and_keeps (url : Option String) (oracle : Oracle)
    (r : BalanceRecord) :
    (enrich_one url oracle r).toBalanceRecord = r ∧
    (∀ l, r ∈ l → enrich_one url oracle r ∈ enrich_with_prices url oracle l) ∧
    (∀ p, get_token_price url oracle (token_address_of r) r.chain_id r.symbol = some p →
      truthyNum r.balance = true →
      (enrich_one url oracle r).price_usd = some p ∧
      (enrich_one url oracle r).value_usd = p * r.balance.getD 0) ∧
    ((get_token_price url oracle (token_address_of r) r.chain_id r.symbol = none ∨
        truthyNum r.balance = false) →
      (enrich_one url oracle r).price_usd = none ∧
      (enrich_one url oracle r).value_usd = 0) := by
  refine ⟨enrich_one_toBalanceRecord url oracle r, ?_, ?_, ?_⟩
  · intro l hl
    exact List.mem_map_of_mem _ hl
  · intro p hp ht
    unfold enrich_one
    rw [hp]
    simp [ht]
  · intro hcase
    unfold enrich_one
    rcases hcase with hp | ht
    · rw [hp]
      exact ⟨rfl, rfl⟩
    · cases hp : get_token_price url oracle (token_address_of r) r.chain_id r.symbol with
      | some p => simp [ht]
      | none => exact ⟨rfl, rfl⟩

/-- **C2 amended witness**: the priced branch at the concrete 2-ETH record. -/
theorem enrich_sets_price_value_and_keeps_witness :
    (enrich_one none oracle0 r0).price_usd = some 3000 ∧
    (enrich_one none oracle0 r0).value_usd = 3000 * (r0.balance.getD 0) :=
  (enrich_sets_price_value_and_keeps none oracle0 r0).2.2.1 3000 rfl (by decide)

/-! ## Sorting helpers: descending stable sort by a rational key -/

lemma desc_trans {α : Type} (key : α → ℚ) :
    ∀ a b c : α, (fun a b => decide (key b ≤ key a)) a b →
      (fun a b => decide (key b ≤ key a)) b c →
      (fun a b => decide (key b ≤ key a)) a c := by
  intro a b c hab hbc
  simp only [decide_eq_true_eq] at hab hbc ⊢
  exact le_trans hbc hab

lemma desc_total {α : Type} (key : α → ℚ) :
    ∀ a b : α, ((fun a b => decide (key b ≤ key a)) a b ||
      (fun a b => decide (key b ≤ key a)) b a) := by
  intro a b
  simpa using le_total (key b) (key a)

lemma mergeSort_desc_pairwise {α : Type} (key : α → ℚ) (l : List α) :
    (l.mergeSort (fun a b => decide (key b ≤ key a))).Pairwise
      (fun a b => key b ≤ key a) := by
  have := List.sorted_mergeSort (desc_trans key) (desc_total key) l
  exact this.imp (by simp)

lemma mergeSort_desc_stable {α : Type} (key : α → ℚ) (l : List α) (q : ℚ) :
    (l.mergeSort (fun a b => decide (key b ≤ key a))).filter
        (fun g => decide (key g = q)) =
      l.filter (fun g => decide (key g = q)) := by
  have hpw : (l.filter (fun g => decide (key g = q))).Pairwise
      (fun a b => decide (key b ≤ key a)) := by
    refine List.pairwise_of_forall_mem_list ?_
    intro a ha b hb
    have ha' := (List.mem_filter.1 ha).2
    have hb' := (List.mem_filter.1 hb).2
    simp only [decide_eq_true_eq] at ha' hb' ⊢
    rw [ha', hb']
  have hsub : List.Sublist (l.filter (fun g => decide (key g = q)))
      (l.mergeSort (fun a b => decide (key b ≤ key a))) :=
    List.sublist_mergeSort (desc_trans key) (desc_total key) hpw (List.filter_sublist l)
  have hsub2 := hsub.filter (fun g => decide (key g = q))
  rw [List.filter_filter, (by simp : (fun a => decide (key a = q) && decide (key a = q)) =
    (fun a => decide (key a = q)))] at hsub2
  have hlen : ((l.mergeSort (fun a b => decide (key b ≤ key a))).filter
      (fun g => decide (key g = q))).length =
      (l.filter (fun g => decide (key g = q))).length :=
    ((List.mergeSort_perm l _).filter _).length_eq
  exact (hsub2.eq_of_length hlen.symm).symm

/-- **C6**: in every summary, both breakdowns are ordered by non-increasing
`value_usd`, and for every value `q` the groups of value `q` appear exactly
as in the encounter-order grouping (ties keep encounter order: the sort is
stable). -/
theorem breakdowns_sorted_descending_stable (url : Option String) (oracle : Oracle)
    (wallet : String) (balances : List BalanceRecord) :
    (aggregate_portfolio url oracle wallet balances).breakdown_by_chain.Pairwise
      (fun a b => b.value_usd ≤ a.value_usd) ∧
    (aggregate_portfolio url oracle wallet balances).breakdown_by_token.Pairwise
      (fun a b => b.value_usd ≤ a.value_usd) ∧
    (∀ q : ℚ, (aggregate_portfolio url oracle wallet balances).breakdown_by_chain.filter
        (fun g => g.value_usd = q) =
      (group_by_chain (enrich_with_prices url oracle
        (balances.filter (fun b => !truthyStr b.error)))).filter
          (fun g => g.value_usd = q)) ∧
    (∀ q : ℚ, (aggregate_portfolio url oracle wallet balances).breakdown_by_token.filter
        (fun g => g.value_usd = q) =
      (group_by_token (enrich_with_prices url oracle
        (balances.filter (fun b => !truthyStr b.error)))).filter
          (fun g => g.value_usd = q)) := by
  by_cases hv : balances.filter (fun b => !truthyStr b.error) = []
  · rw [aggregate_portfolio_of_valid_nil url oracle wallet balances hv, hv]
    simp [create_empty_portfolio, enrich_with_prices, group_by_chain, group_by_token]
  · rw [aggregate_portfolio_of_valid_ne url oracle wallet balances hv]
    refine ⟨mergeSort_desc_pairwise ChainGroup.value_usd _,
      mergeSort_desc_pairwise TokenGroup.value_usd _, ?_, ?_⟩
    · intro q
      exact mergeSort_desc_stable ChainGroup.value_usd _ q
    · intro q
      exact mergeSort_desc_stable TokenGroup.value_usd _ q

/-! ## Value-conservation helpers for the breakdowns -/

lemma upsert_chain_value_sum (gs : List ChainGroup) (r : EnrichedRecord) :
    ((upsert_chain gs r).map (·.value_usd)).sum =
      (gs.map (·.value_usd)).sum + r.value_usd := by
  induction gs with
  | nil => simp [upsert_chain]
  | cons g gs ih =>
    unfold upsert_chain
    by_cases h : g.chain_id = r.chain_id
    · simp only [if_pos h, List.map_cons, List.sum_cons]
      ring
    · simp only [if_neg h, List.map_cons, List.sum_cons, ih]
      ring

lemma upsert_token_value_sum (gs : List TokenGroup) (r : EnrichedRecord) :
    ((upsert_token gs r).map (·.value_usd)).sum =
      (gs.map (·.value_usd)).sum + r.value_usd := by
  induction gs with
  | nil => simp [upsert_token]
  | cons g gs ih =>
    unfold upsert_token
    by_cases h : g.symbol = symbol_key r
    · simp only [if_pos h, List.map_cons, List.sum_cons]
      ring
    · simp only [if_neg h, List.map_cons, List.sum_cons, ih]
      ring

lemma foldl_upsert_chain_sum (l : List EnrichedRecord) :
    ∀ gs : List ChainGroup,
      ((l.foldl upsert_chain gs).map (·.value_usd)).sum =
        (gs.map (·.value_usd)).sum + total_value_of l := by
  induction l with
  | nil => intro gs; simp [total_value_of]
  | cons b l ih =>
    intro gs
    rw [List.foldl_cons, ih, upsert_chain_value_sum]
    simp only [total_value_of, List.map_cons, List.sum_cons]
    ring

lemma foldl_upsert_token_sum (l : List EnrichedRecord) :
    ∀ gs : List TokenGroup,
      ((l.foldl upsert_token gs).map (·.value_usd)).sum =
        (gs.map (·.value_usd)).sum + total_value_of l := by
  induction l with
  | nil => intro gs; simp [total_value_of]
  | cons b l ih =>
    intro gs
    rw [List.foldl_cons, ih, upsert_token_value_sum]
    simp only [total_value_of, List.map_cons, List.sum_cons]
    ring

lemma group_by_chain_sum (l : List EnrichedRecord) :
    ((group_by_chain l).map (·.value_usd)).sum = total_value_of l := by
  simpa using foldl_upsert_chain_sum l []

lemma group_by_token_sum (l : List EnrichedRecord) :
    ((group_by_token l).map (·.value_usd)).sum = total_value_of l := by
  simpa using foldl_upsert_token_sum l []

/-- **C8**: with at least one valid record, the `value_usd` of the chain
breakdown groups sums to `total_value_usd`, and likewise for the token
breakdown (each up to the 2-decimal rounding applied to `total_value_usd`
at output): every enriched record is folded into exactly one chain group
and one symbol group. -/
theorem breakdown_sums_equal_total (url : Option String) (oracle : Oracle)
    (wallet : String) (balances : List BalanceRecord)
    (h : balances.filter (fun b => !truthyStr b.error) ≠ []) :
    round2 (((aggregate_portfolio url oracle wallet balances).breakdown_by_chain.map
        (·.value_usd)).sum) =
      (aggregate_portfolio url oracle wallet balances).total_value_usd ∧
    round2 (((aggregate_portfolio url oracle wallet balances).breakdown_by_token.map
        (·.value_usd)).sum) =
      (aggregate_portfolio url oracle wallet balances).total_value_usd := by
  rw [aggregate_portfolio_of_valid_ne url oracle wallet balances h]
  constructor
  · have hperm := ((List.mergeSort_perm
      (group_by_chain (enrich_with_prices url oracle
        (balances.filter (fun b => !truthyStr b.error)))) chain_desc).map
      (·.value_usd)).sum_eq
    rw [hperm, group_by_chain_sum]
  · have hperm := ((List.mergeSort_perm
      (group_by_token (enrich_with_prices url oracle
        (balances.filter (fun b => !truthyStr b.error)))) token_desc).map
      (·.value_usd)).sum_eq
    rw [hperm, group_by_token_sum]

/-- **C8 witness**: the two rounded sums at a concrete one-record input. -/
theorem breakdown_sums_equal_total_witness :
    round2 (((aggregate_portfolio none oracle0 "w" [r0]).breakdown_by_chain.map
        (·.value_usd)).sum) =
      (aggregate_portfolio none oracle0 "w" [r0]).total_value_usd ∧
    round2 (((aggregate_portfolio none oracle0 "w" [r0]).breakdown_by_token.map
        (·.value_usd)).sum) =
      (aggregate_portfolio none oracle0 "w" [r0]).total_value_usd :=
  breakdown_sums_equal_total none oracle0 "w" [r0] (by decide)

lemma filter_length_pos_iff {α : Type} (p : α → Bool) (l : List α) :
    0 < (l.filter p).length ↔ ∃ b ∈ l, p b = true := by
  rw [List.length_pos]
  constructor
  · intro h
    match hx : l.filter p with
    | [] => exact absurd hx h
    | b :: bs =>
      have hb : b ∈ l.filter p := hx ▸ List.mem_cons_self _ _
      have := List.mem_filter.1 hb
      exact ⟨b, this.1, this.2⟩
  · rintro ⟨b, hb, hp⟩ hnil
    have : b ∈ l.filter p := List.mem_filter.2 ⟨hb, hp⟩
    simp [hnil] at this

/-- **C7**: the warning list produced for an enriched record set and its
total value is exactly the concatenation, in fixed order, of three
conditional messages: the missing-price message (with the count of
price-less records) exactly when some record has `price_usd` absent, the
low-value message exactly when the total is below 1, and the concentration
message exactly when the total is positive and the largest record value
exceeds 90% of it. -/
theorem warnings_are_ordered_concatenation (l : List EnrichedRecord) :
    generate_warnings l (total_value_of l) =
      (if ∃ b ∈ l, b.price_usd = none then
        [s!"ℹ️ {(l.filter (fun b => b.price_usd = none)).length} token(s) missing price data - using fallback estimates"]
       else []) ++
      (if total_value_of l < 1 then ["ℹ️ Portfolio value below $1 USD"] else []) ++
      (if 0 < total_value_of l ∧ 9/10 * total_value_of l < max_value_of l then
        ["⚠️ Portfolio highly concentrated in single asset"]
       else []) := by
  have h1 : 0 < (l.filter (fun b => b.price_usd = none)).length ↔
      ∃ b ∈ l, b.price_usd = none := by
    rw [filter_length_pos_iff]
    simp
  by_cases hl : l = []
  · subst hl
    simp [generate_warnings, total_value_of]
  · unfold generate_warnings
    rw [if_pos hl]
    by_cases h4 : 0 < total_value_of l
    · have hdiv : (9/10 : ℚ) < max_value_of l / total_value_of l ↔
          9/10 * total_value_of l < max_value_of l := lt_div_iff₀ h4
      by_cases h2 : ∃ b ∈ l, b.price_usd = none <;>
        by_cases h3 : total_value_of l < 1 <;>
        by_cases h5 : 9/10 * total_value_of l < max_value_of l <;>
        simp [gt_iff_lt, h1, h2, h3, h4, h5, hdiv]
    · by_cases h2 : ∃ b ∈ l, b.price_usd = none <;>
        by_cases h3 : total_value_of l < 1 <;>
        simp [gt_iff_lt, h1, h2, h3, h4]

/-! ## Fetcher helpers: the try/except wrappers always return normally -/

/-- The record `get_native_balance` returns (collapsing the catch-all). -/
def native_record (env : Web3Env) (wallet_address : String) (chain_id : ℤ) :
    BalanceRecord :=
  match native_body env wallet_address chain_id with
  | .ok r => r
  | .error e => { chain_id := chain_id, error := some e }

/-- The record `get_token_balance` returns (collapsing the catch-all). -/
def token_record (env : Web3Env) (wallet_address token_address : String)
    (chain_id : ℤ) : BalanceRecord :=
  match token_body env wallet_address token_address chain_id with
  | .ok r => r
  | .error e => { chain_id := chain_id,
                  contract_address := some (pyLower token_address),
                  error := some e }

lemma get_native_balance_eq (env : Web3Env) (wallet_address : String)
    (chain_id : ℤ) :
    get_native_balance env wallet_address chain_id =
      Except.ok (native_record env wallet_address chain_id) := by
  unfold get_native_balance pyTry native_record
  cases native_body env wallet_address chain_id <;> rfl

lemma get_token_balance_eq (env : Web3Env) (wallet_address token_address : String)
    (chain_id : ℤ) :
    get_token_balance env wallet_address token_address chain_id =
      Except.ok (token_record env wallet_address token_address chain_id) := by
  unfold get_token_balance pyTry token_record
  cases token_body env wallet_address token_address chain_id <;> rfl

/-- The token loop appends exactly the error-free, positive-balance records,
in input order. -/
lemma wallet_tokens_loop_eq (env : Web3Env) (wallet_address : String)
    (chain_id : ℤ) :
    ∀ (l : List String) (acc : List BalanceRecord),
      wallet_tokens_loop env wallet_address chain_id acc l =
        Except.ok (acc ++ (l.map (fun a => token_record env wallet_address a chain_id)).filter
          (fun r => !truthyStr r.error && decide (r.balance.getD 0 > 0)))
  | [], acc => by simp [wallet_tokens_loop]
  | a :: l, acc => by
    unfold wallet_tokens_loop
    rw [get_token_balance_eq]
    show (if (!truthyStr (token_record env wallet_address a chain_id).error &&
        decide ((token_record env wallet_address a chain_id).balance.getD 0 > 0)) = true
      then wallet_tokens_loop env wallet_address chain_id
        (acc ++ [token_record env wallet_address a chain_id]) l
      else wallet_tokens_loop env wallet_address chain_id acc l) = _
    by_cases hk : (!truthyStr (token_record env wallet_address a chain_id).error &&
        decide ((token_record env wallet_address a chain_id).balance.getD 0 > 0)) = true
    · rw [if_pos hk, wallet_tokens_loop_eq env wallet_address chain_id l]
      simp [List.filter_cons, hk]
    · rw [if_neg hk, wallet_tokens_loop_eq env wallet_address chain_id l]
      simp [List.filter_cons, hk]

/-- **C4**: `get_wallet_tokens` always performs the native resolution and
includes its record exactly when that record carries no (truthy) error; each
address of the optional token list contributes its record exactly when the
record carries no error *and* its balance is strictly positive — zero-balance
token records are dropped.  The absent-list call returns just the native
part. -/
theorem wallet_tokens_membership (env : Web3Env) (wallet_address : String)
    (chain_id : ℤ) (addrs : List String) :
    get_wallet_tokens env wallet_address chain_id (some addrs) =
      Except.ok
        ((if truthyStr (native_record env wallet_address chain_id).error then []
          else [native_record env wallet_address chain_id]) ++
         (addrs.map (fun a => token_record env wallet_address a chain_id)).filter
           (fun r => !truthyStr r.error && decide (r.balance.getD 0 > 0))) ∧
    get_wallet_tokens env wallet_address chain_id none =
      Except.ok
        (if truthyStr (native_record env wallet_address chain_id).error then []
         else [native_record env wallet_address chain_id]) := by
  constructor
  · unfold get_wallet_tokens
    rw [get_native_balance_eq]
    cases addrs with
    | nil =>
      show Except.ok _ = _
      cases htr : truthyStr (native_record env wallet_address chain_id).error <;> simp [htr]
    | cons a l =>
      show wallet_tokens_loop env wallet_address chain_id _ _ = _
      rw [wallet_tokens_loop_eq]
      cases htr : truthyStr (native_record env wallet_address chain_id).error <;> simp [htr]
  · unfold get_wallet_tokens
    rw [get_native_balance_eq]
    show Except.ok _ = _
    cases htr : truthyStr (native_record env wallet_address chain_id).error <;> simp [htr]

/-- **C10**: the three public fetcher operations never propagate an
exception: for every environment (all RPC outcomes, including failures) and
every input (including malformed addresses and unknown chains) each call
returns normally. -/
theorem fetchers_never_raise (env : Web3Env) (wallet_address token_address : String)
    (chain_id : ℤ) (token_addresses : Option (List String)) :
    (∃ r, get_native_balance env wallet_address chain_id = Except.ok r) ∧
    (∃ r, get_token_balance env wallet_address token_address chain_id = Except.ok r) ∧
    (∃ l, get_wallet_tokens env wallet_address chain_id token_addresses = Except.ok l) := by
  refine ⟨⟨_, get_native_balance_eq env wallet_address chain_id⟩,
    ⟨_, get_token_balance_eq env wallet_address token_address chain_id⟩, ?_⟩
  unfold get_wallet_tokens
  rw [get_native_balance_eq]
  cases token_addresses with
  | none => exact ⟨_, rfl⟩
  | some addrs =>
    cases addrs with
    | nil => exact ⟨_, rfl⟩
    | cons a l =>
      show ∃ bs, wallet_tokens_loop env wallet_address chain_id _ _ = Except.ok bs
      rw [wallet_tokens_loop_eq]
      exact ⟨_, rfl⟩

/-! ## Invalid-address behaviour -/

lemma normalize_address_invalid (a : String)
    (h : pyStartsWith (pyStrip a) "0x" = false ∨ (pyStrip a).length ≠ 42) :
    normalize_address a = Except.error s!"Invalid address: {pyStrip a}" := by
  unfold normalize_address
  rcases h with h | h <;> simp [h]

lemma get_native_balance_invalid_wallet (env : Web3Env) (wallet : String)
    (chain : ℤ) (m : String) (havail : env.available chain = true)
    (h : normalize_address wallet = Except.error m) :
    get_native_balance env wallet chain =
      Except.ok { chain_id := chain, error := some m } := by
  unfold get_native_balance native_body
  rw [havail, h]
  rfl

lemma get_token_balance_invalid_wallet (env : Web3Env) (wallet token : String)
    (chain : ℤ) (m : String) (havail : env.available chain = true)
    (h : normalize_address wallet = Except.error m) :
    get_token_balance env wallet token chain =
      Except.ok { chain_id := chain, contract_address := some (pyLower token),
                  error := some m } := by
  unfold get_token_balance token_body
  rw [havail, h]
  rfl

lemma get_token_balance_invalid_token (env : Web3Env) (wallet token : String)
    (chain : ℤ) (w m : String) (havail : env.available chain = true)
    (hw : normalize_address wallet = Except.ok w)
    (h : normalize_address token = Except.error m) :
    get_token_balance env wallet token chain =
      Except.ok { chain_id := chain, contract_address := some (pyLower token),
                  error := some m } := by
  unfold get_token_balance token_body
  rw [havail, hw, h]
  rfl

/-- **C5 counterexample**: on an available chain, a malformed wallet address
does *not* propagate out of `get_native_balance`: the call returns normally
(`Except.ok`), with the invalid-address condition converted into an
error-bearing record by the catch-all handler — refuting the claim that the
error is raised to the immediate caller. -/
theorem invalid_address_not_raised_counterexample :
    get_native_balance env0 "bad" 1 =
      Except.ok { chain_id := 1, error := some "Invalid address: bad" } := rfl

/-- **C5 amended**: for a malformed address (after stripping, not
`0x`-prefixed or not exactly 42 characters) on an available chain, the
resolution call returns normally with an error-bearing record whose message
is `Invalid address: <stripped>` — the condition is caught inside the call,
not raised; and the check runs before any network call: the result does not
depend on any of the environment's query capabilities. -/
theorem invalid_address_converted_to_error_record (env : Web3Env) (chain : ℤ)
    (havail : env.available chain = true) :
    (∀ wallet token : String,
      pyStartsWith (pyStrip wallet) "0x" = false ∨ (pyStrip wallet).length ≠ 42 →
      get_native_balance env wallet chain =
        Except.ok { chain_id := chain,
                    error := some s!"Invalid address: {pyStrip wallet}" } ∧
      get_token_balance env wallet token chain =
        Except.ok { chain_id := chain, contract_address := some (pyLower token),
                    error := some s!"Invalid address: {pyStrip wallet}" }) ∧
    (∀ wallet token : String, ∀ w : String, normalize_address wallet = Except.ok w →
      pyStartsWith (pyStrip token) "0x" = false ∨ (pyStrip token).length ≠ 42 →
      get_token_balance env wallet token chain =
        Except.ok { chain_id := chain, contract_address := some (pyLower token),
                    error := some s!"Invalid address: {pyStrip token}" }) ∧
    (∀ env' : Web3Env, env'.available = env.available →
      ∀ wallet token : String,
      pyStartsWith (pyStrip wallet) "0x" = false ∨ (pyStrip wallet).length ≠ 42 →
      get_native_balance env' wallet chain = get_native_balance env wallet chain ∧
      get_token_balance env' wallet token chain = get_token_balance env wallet token chain) := by
  have hnat : ∀ (e : Web3Env), e.available chain = true → ∀ wallet : String,
      pyStartsWith (pyStrip wallet) "0x" = false ∨ (pyStrip wallet).length ≠ 42 →
      get_native_balance e wallet chain =
        Except.ok { chain_id := chain,
                    error := some s!"Invalid address: {pyStrip wallet}" } :=
    fun e he wallet h =>
      get_native_balance_invalid_wallet e wallet chain _ he (normalize_address_invalid wallet h)
  have htok : ∀ (e : Web3Env), e.available chain = true → ∀ wallet token : String,
      pyStartsWith (pyStrip wallet) "0x" = false ∨ (pyStrip wallet).length ≠ 42 →
      get_token_balance e wallet token chain =
        Except.ok { chain_id := chain, contract_address := some (pyLower token),
                    error := some s!"Invalid address: {pyStrip wallet}" } :=
    fun e he wallet token h =>
      get_token_balance_invalid_wallet e wallet token chain _ he
        (normalize_address_invalid wallet h)
  refine ⟨fun wallet token h => ⟨hnat env havail wallet h, htok env havail wallet token h⟩,
    fun wallet token w hw h =>
      get_token_balance_invalid_token env wallet token chain w _ havail hw
        (normalize_address_invalid token h),
    fun env' he wallet token h => ?_⟩
  have he' : env'.available chain = true := he ▸ havail
  constructor
  · rw [hnat env' he' wallet h, hnat env havail wallet h]
  · rw [htok env' he' wallet token h, htok env havail wallet token h]

/-- **C5 amended witness**: the amended behaviour at the concrete malformed
wallet `"bad"` on chain 1. -/
theorem invalid_address_converted_witness :
    get_native_balance env0 bad 1 =
      Except.ok { chain_id := 1,
                  error := some s!"Invalid address: {pyStrip bad}" } ∧
    get_token_balance env0 bad ta 1 =
      Except.ok { chain_id := 1, contract_address := some (pyLower ta),
                  error := some s!"Invalid address: {pyStrip bad}" } :=
  (invalid_address_converted_to_error_record env0 1 rfl).1 bad ta (by decide)

/-- **C9**: on an available chain with well-formed addresses: every
`balanceOf` success yields a fully populated token record in which each of
the three metadata queries is independently defaulted on failure (`decimals`
to 18, `symbol` to `"UNKNOWN"`, `name` to `"Unknown Token"`) and
`balance = raw / 10^decimals`; every `balanceOf` failure makes the whole
call return an error-bearing record with no balance fields — never a
partial token record. -/
theorem token_metadata_defaults_and_balance_required (env : Web3Env)
    (wallet token : String) (chain : ℤ) (w t : String)
    (havail : env.available chain = true)
    (hw : normalize_address wallet = Except.ok w)
    (ht : normalize_address token = Except.ok t) :
    (∀ raw : ℤ, env.balanceOf chain t w = Except.ok raw →
      get_token_balance env wallet token chain =
        Except.ok
          { chain_id := chain,
            chain_name := some ((CHAIN_CONFIG chain |>.map (·.name)).getD s!"Chain {chain}"),
            token_type := some "erc20",
            contract_address := some (pyLower token),
            symbol := some (match env.symbolQ chain t with
              | .ok s => s
              | .error _ => "UNKNOWN"),
            name := some (match env.nameQ chain t with
              | .ok s => s
              | .error _ => "Unknown Token"),
            balance := some ((raw : ℚ) / 10 ^ (match env.decimalsQ chain t with
              | .ok d => d
              | .error _ => 18)),
            balance_raw := some raw,
            decimals := some (match env.decimalsQ chain t with
              | .ok d => d
              | .error _ => 18) }) ∧
    (∀ e : String, env.balanceOf chain t w = Except.error e →
      get_token_balance env wallet token chain =
        Except.ok { chain_id := chain, contract_address := some (pyLower token),
                    error := some e }) := by
  constructor
  · intro raw hraw
    unfold get_token_balance token_body
    rw [havail, hw, ht]
    simp only [Bool.not_true, Bool.false_eq_true, if_false, pyTry, hraw]
  · intro e he
    unfold get_token_balance token_body
    rw [havail, hw, ht]
    simp only [Bool.not_true, Bool.false_eq_true, if_false, pyTry, he]

/-- **C9 witness**: in the concrete environment whose three metadata queries
all fail but whose `balanceOf` succeeds with 12345, the call returns the
fully populated record with all three defaults and `balance = 12345/10^18`. -/
theorem token_metadata_defaults_witness :
    get_token_balance envMetaFail wa ta 1 =
      Except.ok
        { chain_id := 1,
          chain_name := some ((CHAIN_CONFIG 1 |>.map (·.name)).getD s!"Chain {(1 : ℤ)}"),
          token_type := some "erc20",
          contract_address := some (pyLower ta),
          symbol := some (match envMetaFail.symbolQ 1 (pyStrip ta) with
            | .ok s => s
            | .error _ => "UNKNOWN"),
          name := some (match envMetaFail.nameQ 1 (pyStrip ta) with
            | .ok s => s
            | .error _ => "Unknown Token"),
          balance := some ((12345 : ℚ) / 10 ^ (match envMetaFail.decimalsQ 1 (pyStrip ta) with
            | .ok d => d
            | .error _ => 18)),
          balance_raw := some 12345,
          decimals := some (match envMetaFail.decimalsQ 1 (pyStrip ta) with
            | .ok d => d
            | .error _ => 18) } :=
  (token_metadata_defaults_and_balance_required envMetaFail wa ta 1
    (pyStrip wa) (pyStrip ta) rfl rfl rfl).1 12345 rfl

end PortfolioTracker
